import Mathlib

/-
Verification of the Amplitude dual-mode acquisition adapter
(`src/parsers/amplitude_parser.py`), its HTTP client
(`src/services/amplitude_client.py`), the owning service
(`src/services/parser_manager.py`) and the JSON route
(`src/routes/api.py`).

Modelling conventions:
- Python `None`/absent dict keys are modelled with `Option`; for fields the
  code immediately defaults with `dict.get(key, "")` or `... or ""`, the
  field is modelled directly as a `String` with `""` standing for absence.
- Wall-clock time (`time.time()`) is passed explicitly as an `Int` argument
  `now`; the cache TTL is an `Int` as well.
- Fallible operations (HTTP reads, CSV loading, `int()` parsing) are
  modelled with `Except Unit`; `.error ()` stands for a raised exception.
- Python dicts are modelled as insertion-ordered association lists;
  assignment updates the first matching key in place and otherwise appends,
  exactly like CPython dicts preserve insertion order.
- `sorted(..., key=..., reverse=True)` is a stable descending sort; it is
  modelled with `List.insertionSort`, which is stable for the reflexive
  relation used here, hence produces the identical list.
-/

instance instDecEqExcept {ε α : Type} [DecidableEq ε] [DecidableEq α] :
    DecidableEq (Except ε α)
  | .ok a, .ok b =>
    if h : a = b then .isTrue (by rw [h]) else .isFalse (by intro hc; cases hc; exact h rfl)
  | .ok _, .error _ => .isFalse (by intro hc; cases hc)
  | .error _, .ok _ => .isFalse (by intro hc; cases hc)
  | .error e, .error f =>
    if h : e = f then .isTrue (by rw [h]) else .isFalse (by intro hc; cases hc; exact h rfl)

/-- The whitespace characters removed by Python's `str.strip()`. -/
def pySpace (c : Char) : Bool :=
  c = ' ' || c = '\t' || c = '\n' || c = '\x0d' || c = '\x0b' || c = '\x0c'

/-- Python `str.strip()`. -/
def pyStrip (s : String) : String :=
  ⟨((s.toList.dropWhile pySpace).reverse.dropWhile pySpace).reverse⟩

def pyDigit (c : Char) : Bool := 48 ≤ c.toNat && c.toNat ≤ 57

def digitsToNat (cs : List Char) : Nat :=
  cs.foldl (fun n c => n * 10 + (c.toNat - 48)) 0

/-- Python `int(s)` on an already-stripped string: an optional sign followed
by at least one decimal digit, `none` when the string is malformed and the
call raises `ValueError`.  (Underscore digit separators, which CPython also
accepts, are not modelled; no claim exercises them.) -/
def pyInt? (s : String) : Option Int :=
  match s.toList with
  | [] => none
  | '+' :: cs =>
    if cs ≠ [] && cs.all pyDigit then some (digitsToNat cs : Int) else none
  | '-' :: cs =>
    if cs ≠ [] && cs.all pyDigit then some (-(digitsToNat cs : Int)) else none
  | cs =>
    if cs.all pyDigit then some (digitsToNat cs : Int) else none

/-- First-match lookup in an insertion-ordered dict. -/
def alookup {κ β : Type} [DecidableEq κ] : List (κ × β) → κ → Option β
  | [], _ => none
  | (k, v) :: rest, key => if k = key then some v else alookup rest key

/-- Python `dict.get(key, default)`. -/
def lookupD {κ β : Type} [DecidableEq κ] (l : List (κ × β)) (k : κ) (d : β) : β :=
  (alookup l k).getD d

/-- Python dict assignment `d[k] = v`: update the first matching key in
place, otherwise append at the end (CPython insertion order). -/
def dinsert {κ β : Type} [DecidableEq κ] : List (κ × β) → κ → β → List (κ × β)
  | [], k, v => [(k, v)]
  | (k', v') :: rest, k, v =>
    if k' = k then (k', v) :: rest else (k', v') :: dinsert rest k v

/-- `defaultdict(list)` append: `d[k].append(v)`. -/
def dinsertAppend {κ β : Type} [DecidableEq κ] :
    List (κ × List β) → κ → β → List (κ × List β)
  | [], k, v => [(k, [v])]
  | (k', vs) :: rest, k, v =>
    if k' = k then (k', vs ++ [v]) :: rest else (k', vs) :: dinsertAppend rest k v

/-- One `collections.Counter` increment. -/
def cinc : List (String × Nat) → String → List (String × Nat)
  | [], x => [(x, 1)]
  | (k, n) :: rest, x =>
    if k = x then (k, n + 1) :: rest else (k, n) :: cinc rest x

/-- `collections.Counter(iterable)`: counts in first-encounter order. -/
def counterOf (l : List String) : List (String × Nat) := l.foldl cinc []

/-- Stable sort of counter entries by count, descending
(`Counter.most_common` / pandas `value_counts`). -/
def sortByCountDesc (l : List (String × Nat)) : List (String × Nat) :=
  List.insertionSort (fun a b => b.2 ≤ a.2) l

/-- pandas `Series.value_counts().to_dict()`: the same (value, count)
pairs as `Counter`, ordered by count descending. -/
def valueCounts (l : List String) : List (String × Nat) :=
  sortByCountDesc (counterOf l)

/-- The raw `category` value carried by an event returned from the
Taxonomy API, as inspected by `_api_events_list`
(`ev.get("category") or {}` followed by an `isinstance(cat, dict)` test):
absent/`None`/falsy, a dict with an optional `name` key, a (numeric)
reference, or a plain string. -/
inductive CatVal where
  | nil : CatVal
  | obj : Option String → CatVal
  | intv : Int → CatVal
  | strv : String → CatVal
deriving DecidableEq

/-- A raw event dict from `GET /taxonomy/event`. -/
structure RawEvent where
  event_type : String
  display_name : String
  category : CatVal
  owner : Option String
  description : Option String
  is_active : Bool
deriving DecidableEq

/-- A raw property dict from `GET /taxonomy/event-property`. -/
structure RawProp where
  event_property : String
  description : Option String
  type : Option String
  is_required : Bool
  is_array_type : Bool
deriving DecidableEq

/-- A category dict from `GET /taxonomy/category`. -/
structure RawCategory where
  id : Int
  name : String
deriving DecidableEq

/-- The Amplitude API client as seen by the parser: the three resource
fetches of `AmplitudeAPIClient`, each of which either returns parsed data
or raises.  `getEvents` stands for `get_events(show_deleted=True)`, the
only form the parser calls. -/
structure AmplitudeAPIClient where
  getEvents : Except Unit (List RawEvent)
  getCategories : Except Unit (List RawCategory)
  getEventProperties : String → Except Unit (List RawProp)

/-- The parser's `_cache` dict.  The initial `{}` is `emptyCache`:
`_cache.get("_timestamp", 0)` is `0` and the data keys default to empty. -/
structure Cache where
  timestamp : Int
  events : List RawEvent
  categories : List (Int × String)
  propsByEvent : List (String × List RawProp)
deriving DecidableEq

def emptyCache : Cache :=
  { timestamp := 0, events := [], categories := [], propsByEvent := [] }

/-- `AmplitudeParser._is_cache_valid`: `(time.time() - ts) < self._cache_ttl`. -/
def isCacheValid (now ttl : Int) (c : Cache) : Bool :=
  now - c.timestamp < ttl

/-- `{c["id"]: c["name"] for c in categories_list}`. -/
def categoriesById (cats : List RawCategory) : List (Int × String) :=
  cats.foldl (fun acc c => dinsert acc c.id c.name) []

/-- The per-event property fetch inside `_fetch_api_data`:
`try: ... get_event_properties(event_name) except Exception: []`. -/
def propsOf (client : AmplitudeAPIClient) (name : String) : List RawProp :=
  match client.getEventProperties name with
  | .ok ps => ps
  | .error _ => []

/-- One iteration of the `for ev in raw_events` loop of `_fetch_api_data`:
events without an `event_type` are skipped (`continue`). -/
def fetchStep (client : AmplitudeAPIClient)
    (acc : List (String × List RawProp)) (ev : RawEvent) :
    List (String × List RawProp) :=
  if ev.event_type = "" then acc
  else dinsert acc ev.event_type (propsOf client ev.event_type)

def fetchProps (client : AmplitudeAPIClient) (evs : List RawEvent) :
    List (String × List RawProp) :=
  evs.foldl (fetchStep client) []

/-- Reader calls issued by the property loop: one per event with a
nonempty `event_type`. -/
def propCalls (evs : List RawEvent) : Nat :=
  evs.countP (fun ev => ev.event_type ≠ "")

/-- The replacement cache entry stamped by `_fetch_api_data`. -/
def freshCache (client : AmplitudeAPIClient) (now : Int)
    (evs : List RawEvent) (cats : List RawCategory) : Cache :=
  { timestamp := now,
    events := evs,
    categories := categoriesById cats,
    propsByEvent := fetchProps client evs }

/-- `AmplitudeParser._fetch_api_data`.  Returns the resulting cache (or the
propagated reader exception), the number of reader calls issued, and the
number of refetches performed (0 on the early `return` when the cache is
still valid, 1 otherwise). -/
def fetchApiData (client : AmplitudeAPIClient) (now ttl : Int) (c : Cache) :
    Except Unit Cache × Nat × Nat :=
  if isCacheValid now ttl c then (.ok c, 0, 0)
  else
    match client.getEvents with
    | .error e => (.error e, 1, 1)
    | .ok rawEvents =>
      match client.getCategories with
      | .error e => (.error e, 2, 1)
      | .ok cats =>
        (.ok (freshCache client now rawEvents cats), 2 + propCalls rawEvents, 1)

/-- `AmplitudeParser._ensure_api_data`: refresh the cache if stale. -/
def ensureApiData (client : AmplitudeAPIClient) (now ttl : Int) (c : Cache) :
    Except Unit Cache × Nat × Nat :=
  if isCacheValid now ttl c then (.ok c, 0, 0)
  else fetchApiData client now ttl c

/-- The category label computed by `_api_events_list`:
`cat = ev.get("category") or {}` then
`cat.get("name", "") if isinstance(cat, dict) else str(cat)`.
A falsy raw value (absent, `None`, `0`, `""`, `{}`) becomes `{}` and hence
`""`; a truthy dict contributes its `name`; any other truthy value is
stringified. -/
def catName : CatVal → String
  | .nil => ""
  | .obj name => name.getD ""
  | .intv n => if n = 0 then "" else toString n
  | .strv s => s

/-- The normalised event record shape shared by both modes
(`get_events_list` docstring). -/
structure EventRec where
  name : String
  display_name : String
  category : String
  owner : String
  description : String
  activity : String
  schema_status : String
  volume_180_days : Int
  queries_180_days : Int
  first_seen : String
  last_seen : String
deriving DecidableEq

/-- The event dict built by `_api_events_list` for one raw event. -/
def mkApiEventRec (ev : RawEvent) : EventRec :=
  { name := ev.event_type,
    display_name := ev.display_name,
    category := catName ev.category,
    owner := ev.owner.getD "",
    description := ev.description.getD "",
    activity := if ev.is_active then "ACTIVE" else "DELETED",
    schema_status := "",
    volume_180_days := 0,
    queries_180_days := 0,
    first_seen := "",
    last_seen := "" }

/-- The pure reading part of `_api_events_list` over an up-to-date cache. -/
def apiEventsRead (c : Cache) : List EventRec :=
  c.events.map mkApiEventRec

/-- Observable outcome of one public query in API mode: the returned
records, the cache left behind, the reader calls issued, and the refetches
performed. -/
structure QueryOut (α : Type) where
  result : α
  cache : Cache
  readerCalls : Nat
  refetches : Nat
deriving DecidableEq

/-- `_api_events_list` (hence `get_events_list` in API mode): ensure the
cache is fresh, then read from it. -/
def apiEventsList (client : AmplitudeAPIClient) (now ttl : Int) (c : Cache) :
    Except Unit (QueryOut (List EventRec)) :=
  match ensureApiData client now ttl c with
  | (.ok c', calls, refs) => .ok ⟨apiEventsRead c', c', calls, refs⟩
  | (.error e, _, _) => .error e

/-- The normalised property record built by `_api_properties_by_event`. -/
structure PropRecA where
  name : String
  description : String
  type : String
  required : Bool
  is_array : Bool
  schema_status : String
  first_seen : String
  last_seen : String
deriving DecidableEq

def mkApiPropRec (p : RawProp) : PropRecA :=
  { name := p.event_property,
    description := p.description.getD "",
    type := p.type.getD "",
    required := p.is_required,
    is_array := p.is_array_type,
    schema_status := "",
    first_seen := "",
    last_seen := "" }

/-- The pure reading part of `_api_properties_by_event`. -/
def apiPropsRead (c : Cache) : List (String × List PropRecA) :=
  c.propsByEvent.map (fun kv => (kv.1, kv.2.map mkApiPropRec))

/-- Flattening `for event_name, props in props_by_event.items(): for p in props`. -/
def flatProps (pbe : List (String × List PropRecA)) : List PropRecA :=
  (pbe.map Prod.snd).flatten

/-- The normalised unique-property record of `get_unique_properties_list`
(API branch). -/
structure URec where
  name : String
  description : String
  type : String
  is_array : Bool
  schema_status : String
  first_seen : String
  last_seen : String
  event_count : Nat
deriving DecidableEq

/-- The dict inserted for the first occurrence of a property name, after
the same iteration's update lines have run: the fill conditions cannot
fire on a freshly inserted record, and `event_count` goes from 0 to 1. -/
def initURec (p : PropRecA) : URec :=
  { name := p.name,
    description := p.description,
    type := p.type,
    is_array := p.is_array,
    schema_status := p.schema_status,
    first_seen := "",
    last_seen := "",
    event_count := 1 }

/-- The update applied to an existing record for a repeated occurrence:
fill an empty description/type from the first nonempty later value, and
bump `event_count`. -/
def updateURec (u : URec) (p : PropRecA) : URec :=
  { u with
    description := if u.description = "" ∧ p.description ≠ "" then p.description else u.description,
    type := if u.type = "" ∧ p.type ≠ "" then p.type else u.type,
    event_count := u.event_count + 1 }

/-- One loop iteration of the API branch of `get_unique_properties_list`
over the `unique` dict (keys are property names, unique, in insertion
order). -/
def insertOcc : List URec → PropRecA → List URec
  | [], p => [initURec p]
  | u :: rest, p =>
    if u.name = p.name then updateURec u p :: rest else u :: insertOcc rest p

/-- The `unique` dict after processing all property occurrences. -/
def buildUnique (occs : List PropRecA) : List URec :=
  occs.foldl insertOcc []

/-- `sorted(unique.values(), key=lambda x: x["event_count"], reverse=True)`:
a stable descending sort by occurrence count. -/
def uniqueReduce (occs : List PropRecA) : List URec :=
  List.insertionSort (fun a b => b.event_count ≤ a.event_count) (buildUnique occs)

instance : IsTotal URec (fun a b => b.event_count ≤ a.event_count) :=
  ⟨fun a b => le_total b.event_count a.event_count⟩

instance : IsTrans URec (fun a b => b.event_count ≤ a.event_count) :=
  ⟨fun _ _ _ hab hbc => le_trans hbc hab⟩

/-- Occurrence count of name `n` summed over a `unique`-dict state (with
unique keys this is the single matching record's `event_count`). -/
def cntU (n : String) (l : List URec) : Nat :=
  (l.map (fun u => if u.name = n then u.event_count else 0)).sum

/-- First nonempty string of a list, `""` if there is none. -/
def firstNonEmpty (l : List String) : String :=
  (l.find? (fun s => s ≠ "")).getD ""

/-- The representative description the reduction keeps for name `n`: the
first nonempty description among the occurrences of `n`, in input order. -/
def repDesc (n : String) (occs : List PropRecA) : String :=
  firstNonEmpty ((occs.filter (fun p => p.name = n)).map (·.description))

/-- The representative type kept for name `n`. -/
def repType (n : String) (occs : List PropRecA) : String :=
  firstNonEmpty ((occs.filter (fun p => p.name = n)).map (·.type))

/-- `get_unique_properties_list` in API mode, over an up-to-date cache. -/
def apiUniqueList (pbe : List (String × List PropRecA)) : List URec :=
  uniqueReduce (flatProps pbe)

/-- Return shape of `get_events_summary` (both modes). -/
structure EventsSummary where
  total_events : Nat
  activity_status : List (String × Nat)
  categories : List (String × Nat)
  schema_status : List (String × Nat)
  top_owners : List (String × Nat)
  unique_event_names : Nat
deriving DecidableEq

/-- `get_events_summary`, API branch, over the normalised events list. -/
def eventsSummaryApi (events : List EventRec) : EventsSummary :=
  { total_events := events.length,
    activity_status := counterOf (events.map (·.activity)),
    categories := counterOf ((events.map (·.category)).filter (· ≠ "")),
    schema_status := counterOf ((events.map (·.schema_status)).filter (· ≠ "")),
    top_owners := (sortByCountDesc (counterOf ((events.map (·.owner)).filter (· ≠ "")))).take 10,
    unique_event_names := (events.map (·.name)).dedup.length }

/-- Return shape of `get_properties_summary` (both modes). -/
structure PropsSummary where
  total_properties : Nat
  unique_properties : Nat
  value_types : List (String × Nat)
  required_breakdown : List (String × Nat)
  schema_status : List (String × Nat)
  array_properties_count : Nat
deriving DecidableEq

/-- `get_properties_summary`, API branch. -/
def propsSummaryApi (pbe : List (String × List PropRecA)) : PropsSummary :=
  { total_properties := (flatProps pbe).length,
    unique_properties := ((flatProps pbe).map (·.name)).dedup.length,
    value_types := counterOf (((flatProps pbe).map (·.type)).filter (· ≠ "")),
    required_breakdown := counterOf ((flatProps pbe).map (fun p => if p.required then "true" else "false")),
    schema_status := counterOf (((flatProps pbe).map (·.schema_status)).filter (· ≠ "")),
    array_properties_count := (flatProps pbe).countP (·.is_array) }

/-- Return shape of `get_platform_overview` (both modes). -/
structure Overview where
  platform : String
  total_events : Nat
  total_properties : Nat
  unique_properties : Nat
  active_events : Nat
  deleted_events : Nat
  categories_count : Nat
  last_updated : String
deriving DecidableEq

/-- The dict assembled by `get_platform_overview` from the two summaries. -/
def mkOverview (es : EventsSummary) (ps : PropsSummary) (label : String) : Overview :=
  { platform := "Amplitude",
    total_events := es.total_events,
    total_properties := ps.total_properties,
    unique_properties := ps.unique_properties,
    active_events := lookupD es.activity_status "ACTIVE" 0,
    deleted_events := lookupD es.activity_status "DELETED" 0,
    categories_count := es.categories.length,
    last_updated := label }

/-- `get_platform_overview` in API mode, over an up-to-date cache. -/
def platformOverviewApi (c : Cache) : Overview :=
  mkOverview (eventsSummaryApi (apiEventsRead c)) (propsSummaryApi (apiPropsRead c)) "Live"

/-
CSV (file) mode.  `_load_csv` reads the export with `dtype=str` and
`fillna("")`, so every cell of a present column is a string; a `Row` is one
DataFrame row as an association list from column name to cell text.
`row.get(col, default)` returns `default` only when the column is absent
from the file.  (Direct indexing `row[col]` and DataFrame column selection
raise `KeyError` on a missing column; the claims below only exercise rows
that carry their columns, and `rowGet` with default `""` models the
present-column behaviour.)
-/

abbrev Row := List (String × String)

/-- `row.get(col)` — `none` models both a missing column and Python `None`. -/
def rowGet? (r : Row) (c : String) : Option String := alookup r c

/-- `row.get(col, d)` for a string default / `row[col]` with `d = ""`. -/
def rowGet (r : Row) (c : String) (d : String) : String := (alookup r c).getD d

/-- Row filter of the events queries:
`(Object Type == "Event") & (Object Name notna) & (Object Name != "")`
(after `fillna("")` the `notna` conjunct is always true). -/
def eventRowFilter (r : Row) : Bool :=
  rowGet r "Object Type" "" = "Event" && rowGet r "Object Name" "" ≠ ""

/-- Row filter of the properties summary / unique-properties queries. -/
def propRowFilter (r : Row) : Bool :=
  rowGet r "Event Property Name" "" ≠ ""

/-- Row filter of `get_properties_by_event` (also requires an owner event). -/
def propEventRowFilter (r : Row) : Bool :=
  rowGet r "Event Property Name" "" ≠ "" && rowGet r "Object Name" "" ≠ ""

/-- `int(s) if s else 0` on an already-stripped cell: blank defaults to 0,
anything unparsable raises `ValueError`. -/
def parseCount (s : String) : Except Unit Int :=
  if s = "" then .ok 0
  else
    match pyInt? s with
    | some n => .ok n
    | none => .error ()

/-- The total value of `parseCount` under the assumption that it does not
raise (used to state what a successful parse returns). -/
def parseCountD (s : String) : Int :=
  if s = "" then 0 else (pyInt? s).getD 0

/-- The event dict built by the CSV branch of `get_events_list` for one
filtered row; raises iff one of the two numeric cells is nonblank and
non-numeric. -/
def mkCsvEventRec (r : Row) : Except Unit EventRec := do
  let vol := pyStrip (rowGet r "Event 180 Day Volume" "0")
  let qry := pyStrip (rowGet r "Event 180 Day Queries" "0")
  let volN ← parseCount vol
  let qryN ← parseCount qry
  return { name := rowGet r "Object Name" "",
           display_name := rowGet r "Event Display Name" "",
           category := rowGet r "Event Category" "",
           owner := rowGet r "Object Owner" "",
           description := rowGet r "Object Description" "",
           activity := rowGet r "Event Activity" "",
           schema_status := rowGet r "Event Schema Status" "",
           volume_180_days := volN,
           queries_180_days := qryN,
           first_seen := rowGet r "Event First Seen" "",
           last_seen := rowGet r "Event Last Seen" "" }

/-- The total record corresponding to `mkCsvEventRec` when neither numeric
cell raises. -/
def csvEventRecTotal (r : Row) : EventRec :=
  { name := rowGet r "Object Name" "",
    display_name := rowGet r "Event Display Name" "",
    category := rowGet r "Event Category" "",
    owner := rowGet r "Object Owner" "",
    description := rowGet r "Object Description" "",
    activity := rowGet r "Event Activity" "",
    schema_status := rowGet r "Event Schema Status" "",
    volume_180_days := parseCountD (pyStrip (rowGet r "Event 180 Day Volume" "0")),
    queries_180_days := parseCountD (pyStrip (rowGet r "Event 180 Day Queries" "0")),
    first_seen := rowGet r "Event First Seen" "",
    last_seen := rowGet r "Event Last Seen" "" }

/-- `get_events_list`, CSV branch. -/
def csvEventsList (rows : List Row) : Except Unit (List EventRec) :=
  (rows.filter eventRowFilter).mapM mkCsvEventRec

/-- The property record built by the CSV branch of
`get_properties_by_event`.  `required` and `is_array` come from
`row.get(col, False)`: the raw cell text when the column is present, the
Python boolean `False` when it is absent — hence `Option String` here,
against `Bool` in `PropRecA`. -/
structure PropRecC where
  name : String
  description : String
  type : String
  required : Option String
  is_array : Option String
  schema_status : String
  first_seen : String
  last_seen : String
deriving DecidableEq

def mkCsvPropRec (r : Row) : PropRecC :=
  { name := rowGet r "Event Property Name" "",
    description := rowGet r "Property Description" "",
    type := rowGet r "Property Value Type" "",
    required := rowGet? r "Property Required",
    is_array := rowGet? r "Property Is Array",
    schema_status := rowGet r "Property Schema Status" "",
    first_seen := rowGet r "Property First Seen" "",
    last_seen := rowGet r "Property Last Seen" "" }

/-- `get_properties_by_event`, CSV branch
(`defaultdict(list)` keyed by `Object Name`, rows in file order). -/
def csvPropsByEvent (rows : List Row) : List (String × List PropRecC) :=
  (rows.filter propEventRowFilter).foldl
    (fun acc r => dinsertAppend acc (rowGet r "Object Name" "") (mkCsvPropRec r)) []

/-- The unique-property record of the CSV branch of
`get_unique_properties_list`; like `PropRecC`, `is_array` is the raw cell
(or absent-column `False`). -/
structure URecC where
  name : String
  description : String
  type : String
  is_array : Option String
  schema_status : String
  first_seen : String
  last_seen : String
  event_count : Nat
deriving DecidableEq

/-- Python truthiness of `row.get(col)` for a string-or-absent cell. -/
def rowTruthy (r : Row) (c : String) : Bool :=
  match rowGet? r c with
  | some s => s ≠ ""
  | none => false

/-- Truthiness of `row.get("Object Name") and row.get("Object Name").strip()`,
the guard on the CSV `event_count` increment. -/
def rowObjNameCounts (r : Row) : Bool :=
  match rowGet? r "Object Name" with
  | some s => s ≠ "" && pyStrip s ≠ ""
  | none => false

/-- The dict inserted for the first CSV occurrence of a property name
(before the same iteration's update lines run). -/
def initURecC (r : Row) : URecC :=
  { name := rowGet r "Event Property Name" "",
    description := rowGet r "Property Description" "",
    type := rowGet r "Property Value Type" "",
    is_array := rowGet? r "Property Is Array",
    schema_status := rowGet r "Property Schema Status" "",
    first_seen := rowGet r "Property First Seen" "",
    last_seen := rowGet r "Property Last Seen" "",
    event_count := 0 }

/-- The update lines of the CSV loop: fill empty description/type from a
truthy cell, and bump `event_count` only when the row names an owner event
whose name is nonblank. -/
def updateURecC (u : URecC) (r : Row) : URecC :=
  let u1 := if u.description = "" ∧ rowTruthy r "Property Description"
            then { u with description := rowGet r "Property Description" "" } else u
  let u2 := if u1.type = "" ∧ rowTruthy r "Property Value Type"
            then { u1 with type := rowGet r "Property Value Type" "" } else u1
  if rowObjNameCounts r then { u2 with event_count := u2.event_count + 1 } else u2

/-- One loop iteration of the CSV branch of `get_unique_properties_list`. -/
def insertOccC : List URecC → Row → List URecC
  | [], r => [updateURecC (initURecC r) r]
  | u :: rest, r =>
    if u.name = rowGet r "Event Property Name" ""
    then updateURecC u r :: rest
    else u :: insertOccC rest r

/-- `get_unique_properties_list`, CSV branch. -/
def csvUniqueList (rows : List Row) : List URecC :=
  List.insertionSort (fun a b => b.event_count ≤ a.event_count)
    ((rows.filter propRowFilter).foldl insertOccC [])

/-- `get_events_summary`, CSV branch. -/
def eventsSummaryCsv (rows : List Row) : EventsSummary :=
  { total_events := (rows.filter eventRowFilter).length,
    activity_status := valueCounts ((rows.filter eventRowFilter).map (fun r => rowGet r "Event Activity" "")),
    categories := valueCounts ((rows.filter eventRowFilter).map (fun r => rowGet r "Event Category" "")),
    schema_status := valueCounts ((rows.filter eventRowFilter).map (fun r => rowGet r "Event Schema Status" "")),
    top_owners := (valueCounts ((rows.filter eventRowFilter).map (fun r => rowGet r "Object Owner" ""))).take 10,
    unique_event_names := ((rows.filter eventRowFilter).map (fun r => rowGet r "Object Name" "")).dedup.length }

/-- `properties_df["Property Is Array"] == True` compares a string cell
with the Python boolean `True`, which is never equal. -/
def pyStrEqTrue (_ : String) : Bool := false

/-- `get_properties_summary`, CSV branch. -/
def propsSummaryCsv (rows : List Row) : PropsSummary :=
  { total_properties := (rows.filter propRowFilter).length,
    unique_properties := ((rows.filter propRowFilter).map (fun r => rowGet r "Event Property Name" "")).dedup.length,
    value_types := valueCounts ((rows.filter propRowFilter).map (fun r => rowGet r "Property Value Type" "")),
    required_breakdown := valueCounts ((rows.filter propRowFilter).map (fun r => rowGet r "Property Required" "")),
    schema_status := valueCounts ((rows.filter propRowFilter).map (fun r => rowGet r "Property Schema Status" "")),
    array_properties_count := (rows.filter propRowFilter).countP (fun r => pyStrEqTrue (rowGet r "Property Is Array" "")) }

/-- `get_platform_overview`, CSV mode. -/
def platformOverviewCsv (rows : List Row) : Overview :=
  mkOverview (eventsSummaryCsv rows) (propsSummaryCsv rows) "CSV snapshot"

/-
Dict views.  The Python queries return dicts; to state the cross-mode
shape claims, each record is rendered as the association list the code
literally builds, with `PyVal` tagging the runtime type of each value.
-/

inductive PyVal where
  | str : String → PyVal
  | int : Int → PyVal
  | bool : Bool → PyVal
  | counter : List (String × Nat) → PyVal
deriving DecidableEq

inductive PyTy where
  | str : PyTy
  | int : PyTy
  | bool : PyTy
  | counter : PyTy
deriving DecidableEq

def PyVal.ty : PyVal → PyTy
  | .str _ => .str
  | .int _ => .int
  | .bool _ => .bool
  | .counter _ => .counter

/-- A cell that Python defaulted to the boolean `False` when the column was
absent, and left as a string otherwise. -/
def pyOfOptStr : Option String → PyVal
  | some s => .str s
  | none => .bool false

def dictKeys (d : List (String × PyVal)) : List String := d.map Prod.fst

def dictTys (d : List (String × PyVal)) : List PyTy := d.map (fun kv => kv.2.ty)

def eventDict (e : EventRec) : List (String × PyVal) :=
  [("name", .str e.name),
   ("display_name", .str e.display_name),
   ("category", .str e.category),
   ("owner", .str e.owner),
   ("description", .str e.description),
   ("activity", .str e.activity),
   ("schema_status", .str e.schema_status),
   ("volume_180_days", .int e.volume_180_days),
   ("queries_180_days", .int e.queries_180_days),
   ("first_seen", .str e.first_seen),
   ("last_seen", .str e.last_seen)]

def propDictA (p : PropRecA) : List (String × PyVal) :=
  [("name", .str p.name),
   ("description", .str p.description),
   ("type", .str p.type),
   ("required", .bool p.required),
   ("is_array", .bool p.is_array),
   ("schema_status", .str p.schema_status),
   ("first_seen", .str p.first_seen),
   ("last_seen", .str p.last_seen)]

def propDictC (p : PropRecC) : List (String × PyVal) :=
  [("name", .str p.name),
   ("description", .str p.description),
   ("type", .str p.type),
   ("required", pyOfOptStr p.required),
   ("is_array", pyOfOptStr p.is_array),
   ("schema_status", .str p.schema_status),
   ("first_seen", .str p.first_seen),
   ("last_seen", .str p.last_seen)]

def uniqueDictA (u : URec) : List (String × PyVal) :=
  [("name", .str u.name),
   ("description", .str u.description),
   ("type", .str u.type),
   ("is_array", .bool u.is_array),
   ("schema_status", .str u.schema_status),
   ("first_seen", .str u.first_seen),
   ("last_seen", .str u.last_seen),
   ("event_count", .int (u.event_count : Int))]

def uniqueDictC (u : URecC) : List (String × PyVal) :=
  [("name", .str u.name),
   ("description", .str u.description),
   ("type", .str u.type),
   ("is_array", pyOfOptStr u.is_array),
   ("schema_status", .str u.schema_status),
   ("first_seen", .str u.first_seen),
   ("last_seen", .str u.last_seen),
   ("event_count", .int (u.event_count : Int))]

def eventsSummaryDict (s : EventsSummary) : List (String × PyVal) :=
  [("total_events", .int (s.total_events : Int)),
   ("activity_status", .counter s.activity_status),
   ("categories", .counter s.categories),
   ("schema_status", .counter s.schema_status),
   ("top_owners", .counter s.top_owners),
   ("unique_event_names", .int (s.unique_event_names : Int))]

def propsSummaryDict (s : PropsSummary) : List (String × PyVal) :=
  [("total_properties", .int (s.total_properties : Int)),
   ("unique_properties", .int (s.unique_properties : Int)),
   ("value_types", .counter s.value_types),
   ("required_breakdown", .counter s.required_breakdown),
   ("schema_status", .counter s.schema_status),
   ("array_properties_count", .int (s.array_properties_count : Int))]

def overviewDict (o : Overview) : List (String × PyVal) :=
  [("platform", .str o.platform),
   ("total_events", .int (o.total_events : Int)),
   ("total_properties", .int (o.total_properties : Int)),
   ("unique_properties", .int (o.unique_properties : Int)),
   ("active_events", .int (o.active_events : Int)),
   ("deleted_events", .int (o.deleted_events : Int)),
   ("categories_count", .int (o.categories_count : Int)),
   ("last_updated", .str o.last_updated)]

def eventKeys : List String :=
  ["name", "display_name", "category", "owner", "description", "activity",
   "schema_status", "volume_180_days", "queries_180_days", "first_seen", "last_seen"]

def eventTys : List PyTy :=
  [.str, .str, .str, .str, .str, .str, .str, .int, .int, .str, .str]

def propKeys : List String :=
  ["name", "description", "type", "required", "is_array",
   "schema_status", "first_seen", "last_seen"]

def propTysApi : List PyTy := [.str, .str, .str, .bool, .bool, .str, .str, .str]

def propTysCsv : List PyTy := [.str, .str, .str, .str, .str, .str, .str, .str]

def uniqueKeys : List String :=
  ["name", "description", "type", "is_array", "schema_status",
   "first_seen", "last_seen", "event_count"]

def uniqueTysApi : List PyTy := [.str, .str, .str, .bool, .str, .str, .str, .int]

def uniqueTysCsv : List PyTy := [.str, .str, .str, .str, .str, .str, .str, .int]

/-
`AmplitudeAPIClient._get` (`src/services/amplitude_client.py`).

The session is mounted with
`HTTPAdapter(max_retries=Retry(total=3, backoff_factor=1,
status_forcelist=[429,500,502,503,504], allowed_methods=["GET"]))` for
`https://` URLs (all configured base URLs are `https://`).  urllib3's
`Retry` keeps `raise_on_status=True` by default: a response whose status is
in the forcelist is retried up to 3 times and, once retries are exhausted,
`MaxRetryError` is raised, which `requests` surfaces as
`requests.exceptions.RetryError` — the final 429 response is *not*
returned to `_get`.  `transportGet` models one `session.get` call over a
stream of transport responses indexed by request number and also counts
the HTTP requests actually issued.  (Transport-level backoff sleeps happen
inside the adapter and are not modelled; `_get`'s own `time.sleep` calls
are recorded explicitly.)
-/

structure HttpResp where
  status : Nat
  retryAfter : Option Int
  body : String
  success : Bool
  errMsg : Option String
deriving DecidableEq

def inForcelist (s : Nat) : Bool :=
  s == 429 || s == 500 || s == 502 || s == 503 || s == 504

/-- One `session.get`: `fuel` transport retries remain.  Returns either the
first response whose status is outside the forcelist, or a transport error
once retries are exhausted, together with the number of requests issued. -/
def transportGet (responses : Nat → HttpResp) : Nat → Nat → Except Unit HttpResp × Nat
  | idx, 0 =>
    if inForcelist (responses idx).status then (.error (), 1) else (.ok (responses idx), 1)
  | idx, fuel + 1 =>
    if inForcelist (responses idx).status then
      let p := transportGet responses (idx + 1) fuel
      (p.1, p.2 + 1)
    else (.ok (responses idx), 1)

/-- Outcome of `_get`: parsed data, an `AmplitudeAPIError`, or a
transport-level `requests.exceptions.RetryError`. -/
inductive GetOutcome where
  | ok : HttpResp → GetOutcome
  | apiError : Nat → String → GetOutcome
  | transportError : GetOutcome
deriving DecidableEq

/-- The tail of `_get` after a response has been obtained:
`response.ok` is `status_code < 400`; a 2xx/3xx body with a falsy
`success` flag raises `AmplitudeAPIError` with the first reported error
message (`"Unknown error"` when the `errors` key is absent). -/
def checkResponse (r : HttpResp) : GetOutcome :=
  if ¬ (r.status < 400) then .apiError r.status r.body
  else if ¬ r.success then .apiError r.status (r.errMsg.getD "Unknown error")
  else .ok r

/-- `AmplitudeAPIClient._get` over a stream of transport responses.
Returns the outcome, the total number of HTTP requests issued, and the
durations of the `time.sleep(retry_after)` calls executed by the manual
429 branch (`int(headers.get("Retry-After", "5"))`, i.e. default 5). -/
def clientGet (responses : Nat → HttpResp) : GetOutcome × Nat × List Int :=
  match transportGet responses 0 3 with
  | (.error _, n) => (.transportError, n, [])
  | (.ok r, n) =>
    if r.status = 429 then
      let ra := r.retryAfter.getD 5
      match transportGet responses n 3 with
      | (.error _, m) => (.transportError, n + m, [ra])
      | (.ok r2, m) => (checkResponse r2, n + m, [ra])
    else (checkResponse r, n, [])

/-
`ParserManager._init_amplitude` (`src/services/parser_manager.py`) and the
JSON route `api_amplitude_events` (`src/routes/api.py`).
-/

/-- The Amplitude adapter, in exactly one of its two construction modes. -/
inductive AmpParser where
  | api : AmplitudeAPIClient → Cache → Int → AmpParser
  | csv : List Row → AmpParser

/-- `AmplitudeParser(api_client=client, cache_ttl=ttl)`: the constructor
runs `_fetch_api_data()` on the empty cache and propagates any
events/categories reader exception. -/
def constructApiParser (client : AmplitudeAPIClient) (ttl now : Int) :
    Except Unit AmpParser :=
  match (fetchApiData client now ttl emptyCache).1 with
  | .ok c => .ok (.api client c ttl)
  | .error e => .error e

/-- `AmplitudeParser(file_path=...)`: `loadCsv` stands for the outcome of
`pd.read_csv` on the local snapshot file. -/
def constructCsvParser (loadCsv : Except Unit (List Row)) : Except Unit AmpParser :=
  match loadCsv with
  | .ok rows => .ok (.csv rows)
  | .error e => .error e

/-- `ParserManager._init_amplitude`: try API mode only when the configured
mode is `"api"` and both credentials are truthy (nonempty); any exception
falls through to CSV mode; a CSV failure leaves the adapter reference
`None`. -/
def initAmplitude (mode apiKey secretKey : String)
    (client : AmplitudeAPIClient) (ttl now : Int)
    (loadCsv : Except Unit (List Row)) : Option AmpParser :=
  if mode = "api" ∧ apiKey ≠ "" ∧ secretKey ≠ "" then
    match constructApiParser client ttl now with
    | .ok p => some p
    | .error _ =>
      match constructCsvParser loadCsv with
      | .ok p => some p
      | .error _ => none
  else
    match constructCsvParser loadCsv with
    | .ok p => some p
    | .error _ => none

/-- A JSON response from the `/api/amplitude/events` route. -/
inductive ApiResponse where
  | payload : List EventRec → Nat → ApiResponse
  | errorPayload : String → Nat → ApiResponse
deriving DecidableEq

/-- `parser.get_events_list()` dispatched on the adapter's mode. -/
def getEventsListP (now : Int) : AmpParser → Except Unit (List EventRec)
  | .api client c ttl =>
    match apiEventsList client now ttl c with
    | .ok out => .ok out.result
    | .error e => .error e
  | .csv rows => csvEventsList rows

/-- `api_amplitude_events`: a missing adapter yields the
`{'error': 'Amplitude data not available'}, 404` payload; otherwise the
events list is serialised with status 200. -/
def apiAmplitudeEvents (now : Int) (p? : Option AmpParser) : Except Unit ApiResponse :=
  match p? with
  | none => .ok (.errorPayload "Amplitude data not available" 404)
  | some p =>
    match getEventsListP now p with
    | .ok evs => .ok (.payload evs 200)
    | .error e => .error e

/-- Modelled from the spec (claim C6 wording, for comparison with the
implementation): the category label "resolved via the id→name mapping
(falls back to empty string or stringified raw value if the mapping is
absent)" — the mapping entry for a numeric reference when one exists. -/
def specCategoryViaMapping (mapping : List (Int × String)) (cv : CatVal) : String :=
  match cv with
  | .nil => ""
  | .obj name => name.getD ""
  | .intv n => (alookup mapping n).getD (toString n)
  | .strv s => s

/-
Concrete data used by the witness and counterexample theorems.
-/

def exEvent (nm : String) (act : Bool) : RawEvent :=
  { event_type := nm, display_name := "", category := .nil,
    owner := none, description := none, is_active := act }

def exProp (nm desc ty : String) : RawProp :=
  { event_property := nm, description := some desc, type := some ty,
    is_required := false, is_array_type := false }

def exClient1 : AmplitudeAPIClient :=
  { getEvents := .ok [exEvent "signup" true, exEvent "purchase" false],
    getCategories := .ok [⟨1, "Growth"⟩],
    getEventProperties := fun _ => .ok [exProp "plan" "the plan" "string"] }

def exCache1 : Cache :=
  { timestamp := 1000,
    events := [exEvent "signup" true, exEvent "purchase" false],
    categories := [(1, "Growth")],
    propsByEvent := [("signup", [exProp "plan" "the plan" "string"])] }

def exClient2 : AmplitudeAPIClient :=
  { getEvents := .ok [exEvent "signup" true, exEvent "purchase" false],
    getCategories := .ok [],
    getEventProperties := fun nm =>
      if nm = "purchase" then .error () else .ok [exProp "plan" "the plan" "string"] }

def resp429NoHeader : HttpResp :=
  { status := 429, retryAfter := none, body := "rate limited",
    success := false, errMsg := none }

def c6Event : RawEvent :=
  { event_type := "purchase", display_name := "", category := .intv 7,
    owner := none, description := none, is_active := true }

def c6Cache : Cache :=
  { timestamp := 0, events := [c6Event], categories := [(7, "Growth")],
    propsByEvent := [] }

def mkPropA (nm desc ty : String) : PropRecA :=
  { name := nm, description := desc, type := ty, required := false,
    is_array := false, schema_status := "", first_seen := "", last_seen := "" }

/-- The end-to-end scenario input: 3 events, each carrying the 2 shared
properties `user_id`, `session_id` and 1 distinct property. -/
def c7Pbe : List (String × List PropRecA) :=
  [("signup", [mkPropA "user_id" "uid" "string", mkPropA "session_id" "" "string",
               mkPropA "plan" "the plan" "string"]),
   ("purchase", [mkPropA "user_id" "" "string", mkPropA "session_id" "sid" "string",
                 mkPropA "amount" "total" "number"]),
   ("refund", [mkPropA "user_id" "" "string", mkPropA "session_id" "" "string",
               mkPropA "reason" "why" "string"])]

def c9l1 : List PropRecA :=
  [mkPropA "user_id" "uid" "string", mkPropA "plan" "" "string",
   mkPropA "user_id" "" "string"]

def c9l2 : List PropRecA :=
  [mkPropA "user_id" "" "string", mkPropA "user_id" "uid" "string",
   mkPropA "plan" "" "string"]

def c8BadRow : Row :=
  [("Object Type", "Event"), ("Object Name", "signup"),
   ("Event 180 Day Volume", "abc"), ("Event 180 Day Queries", "7")]

def c8GoodRows : List Row :=
  [[("Object Type", "Event"), ("Object Name", "signup"),
    ("Event 180 Day Volume", " 12 "), ("Event 180 Day Queries", "")],
   [("Object Type", "Event"), ("Object Name", "purchase"),
    ("Event 180 Day Volume", ""), ("Event 180 Day Queries", "3")]]

def c5Row : Row :=
  [("Object Type", "Event"), ("Object Name", "signup"),
   ("Event Property Name", "user_id"), ("Property Description", "uid"),
   ("Property Value Type", "string"), ("Property Required", "TRUE"),
   ("Property Is Array", "FALSE"), ("Property Schema Status", "LIVE"),
   ("Event 180 Day Volume", "5"), ("Event 180 Day Queries", "2"),
   ("Event Activity", "ACTIVE")]

def c5Rows : List Row := [c5Row]

def c5Cache : Cache :=
  { timestamp := 0,
    events := [exEvent "signup" true],
    categories := [],
    propsByEvent := [("signup", [{ event_property := "user_id",
                                   description := some "uid",
                                   type := some "string",
                                   is_required := true,
                                   is_array_type := false }])] }

def exRows1 : List Row :=
  [[("Object Type", "Event"), ("Object Name", "signup"),
    ("Event 180 Day Volume", "5"), ("Event 180 Day Queries", "2")]]

/-
Theorems.  Helper lemmas first, then one theorem per claim (with its
witness or counterexample where required).
-/

theorem lookupD_cinc (acc : List (String × Nat)) (x v : String) :
    lookupD (cinc acc x) v 0 = lookupD acc v 0 + (if x = v then 1 else 0) := by
  induction acc with
  | nil =>
    by_cases hxv : x = v <;> simp [cinc, lookupD, alookup, hxv]
  | cons hd tl ih =>
    obtain ⟨k, n⟩ := hd
    by_cases hkx : k = x
    · by_cases hkv : k = v
      · have hxv : x = v := by rw [← hkx]; exact hkv
        simp [cinc, lookupD, alookup, hkx, hkv, hxv]
      · have hxv : ¬ x = v := fun h => hkv (hkx.trans h)
        simp [cinc, lookupD, alookup, hkx, hkv, hxv]
    · by_cases hkv : k = v
      · have hxv : ¬ x = v := fun h => hkx (hkv.trans h.symm)
        have hvx : ¬ v = x := fun h => hkx (hkv.trans h)
        simp [cinc, lookupD, alookup, hkx, hkv, hxv, hvx]
      · simpa [cinc, lookupD, alookup, hkx, hkv] using ih

theorem countP_active_deleted (l : List String)
    (h : ∀ x ∈ l, x = "ACTIVE" ∨ x = "DELETED") :
    l.countP (fun x => x = "ACTIVE") + l.countP (fun x => x = "DELETED") = l.length := by
  induction l with
  | nil => simp
  | cons x xs ih =>
    have hxs := ih (fun y hy => h y (List.mem_cons_of_mem _ hy))
    rcases h x (by simp) with hx | hx <;>
      (subst hx; simp [List.countP_cons]; omega)

theorem lookupD_foldl_cinc (l : List String) (acc : List (String × Nat)) (v : String) :
    lookupD (l.foldl cinc acc) v 0 = lookupD acc v 0 + l.countP (fun x => x = v) := by
  induction l generalizing acc with
  | nil => simp
  | cons x xs ih =>
    rw [List.foldl_cons, ih, lookupD_cinc, List.countP_cons]
    by_cases hxv : x = v <;> (simp [hxv]; try omega)

theorem lookupD_counterOf (l : List String) (v : String) :
    lookupD (counterOf l) v 0 = l.countP (fun x => x = v) := by
  simpa [counterOf, lookupD, alookup] using lookupD_foldl_cinc l [] v

/-- Claim C10: in API mode every normalised event's activity is exactly
`"ACTIVE"` or `"DELETED"` (an absent or falsy `is_active` flag yields
`"DELETED"`), and consequently `active_events + deleted_events =
total_events` in the platform overview; no third activity value is ever
produced in API mode. -/
theorem amplitude_activity_invariant (c : Cache) :
    (∀ e ∈ apiEventsRead c, e.activity = "ACTIVE" ∨ e.activity = "DELETED") ∧
    (platformOverviewApi c).active_events + (platformOverviewApi c).deleted_events
      = (platformOverviewApi c).total_events := by
  have hdich : ∀ x ∈ (apiEventsRead c).map (·.activity), x = "ACTIVE" ∨ x = "DELETED" := by
    intro x hx
    simp only [apiEventsRead, List.map_map, List.mem_map] at hx
    obtain ⟨ev, _, rfl⟩ := hx
    by_cases h : ev.is_active <;> simp [mkApiEventRec, h]
  constructor
  · intro e he
    have : e.activity ∈ (apiEventsRead c).map (·.activity) := List.mem_map_of_mem _ he
    exact hdich _ this
  · show lookupD (counterOf ((apiEventsRead c).map (·.activity))) "ACTIVE" 0
        + lookupD (counterOf ((apiEventsRead c).map (·.activity))) "DELETED" 0
        = (apiEventsRead c).length
    rw [lookupD_counterOf, lookupD_counterOf,
      countP_active_deleted _ hdich, List.length_map]

theorem amplitude_activity_invariant_witness :
    ((mkApiEventRec (exEvent "signup" true)).activity = "ACTIVE" ∨
      (mkApiEventRec (exEvent "signup" true)).activity = "DELETED") ∧
    (platformOverviewApi exCache1).active_events + (platformOverviewApi exCache1).deleted_events
      = (platformOverviewApi exCache1).total_events := by
  have h := amplitude_activity_invariant exCache1
  exact ⟨h.1 (mkApiEventRec (exEvent "signup" true)) (by decide), h.2⟩

/-- Claim C6 counterexample: the claim says the category field of an API
event is resolved through the id→name mapping built from the fetched
category list.  In `c6Cache` the mapping has an entry `7 ↦ "Growth"` for
the event's category reference `7`, yet `_api_events_list` returns the
stringified raw value `"7"`: the mapping is never consulted. -/
theorem amplitude_category_mapping_counterexample :
    (apiEventsRead c6Cache).map (·.category) = ["7"] ∧
    c6Cache.events.map (fun ev => specCategoryViaMapping c6Cache.categories ev.category)
      = ["Growth"] ∧
    (apiEventsRead c6Cache).map (·.category)
      ≠ c6Cache.events.map (fun ev => specCategoryViaMapping c6Cache.categories ev.category) := by
  decide

/-- Claim C6 (amended): in API mode each event's category field is taken
from the event's own embedded category value — a dict contributes its
`name` (empty when missing), a falsy value contributes `""`, and any other
raw value is stringified (`catName`); the id→name mapping stored in the
cache during the refetch is not consulted: the events list is unchanged
under arbitrary replacement of the cached mapping. -/
theorem amplitude_category_from_embedded (c : Cache) (cats : List (Int × String)) :
    (apiEventsRead c).map (·.category) = c.events.map (fun ev => catName ev.category) ∧
    apiEventsRead { c with categories := cats } = apiEventsRead c := by
  constructor
  · simp only [apiEventsRead, List.map_map]
    rfl
  · rfl

theorem transportGet_all429 (responses : Nat → HttpResp)
    (h : ∀ i, (responses i).status = 429) (idx fuel : Nat) :
    transportGet responses idx fuel = (.error (), fuel + 1) := by
  induction fuel generalizing idx with
  | zero => simp [transportGet, inForcelist, h idx]
  | succ f ih => simp [transportGet, inForcelist, h idx, ih]

/-- Claim C3 counterexample: against a transport that answers every
request with 429 and no `Retry-After` header, `_get` issues 4 requests
(the initial one plus the adapter's 3 transport retries), never executes
its manual 429 branch (no `time.sleep` of the default 5 seconds), and
surfaces a transport `RetryError` — not an `AmplitudeAPIError` carrying
status 429 as the claim states: urllib3's `Retry` raises on a forcelisted
status once retries are exhausted instead of returning the 429 response. -/
theorem amplitude_rate_limit_counterexample :
    clientGet (fun _ => resp429NoHeader) = (.transportError, 4, []) ∧
    (clientGet (fun _ => resp429NoHeader)).2.2 ≠ [(5 : Int)] ∧
    (clientGet (fun _ => resp429NoHeader)).1 ≠ .apiError 429 "rate limited" := by
  decide

/-- Claim C3 (amended): when the underlying HTTP transport answers every
GET with status 429, a single call to `_get` issues exactly
1 + 3 = 4 requests (the transport retry policy), performs no manual
`Retry-After` sleep, and surfaces a transport retry-exhaustion error
rather than an Upstream-API error: the manual 429 branch is unreachable
because the mounted retry adapter raises on a forcelisted status. -/
theorem amplitude_rate_limit_behaviour (responses : Nat → HttpResp)
    (h : ∀ i, (responses i).status = 429) :
    clientGet responses = (.transportError, 4, []) := by
  have h0 := transportGet_all429 responses h 0 3
  simp [clientGet, h0]

theorem amplitude_rate_limit_behaviour_witness :
    clientGet (fun _ => resp429NoHeader) = (GetOutcome.transportError, 4, ([] : List Int)) :=
  amplitude_rate_limit_behaviour (fun _ => resp429NoHeader) (fun _ => rfl)

/-- Claim C4: if API mode is requested but either credential is absent, or
API-mode adapter construction raises, `_init_amplitude` constructs the
adapter in file mode against the local snapshot file; if that construction
also raises, the adapter reference is `None`, and the JSON route answers a
`None` adapter with the `'Amplitude data not available'` 404 payload
instead of raising. -/
theorem amplitude_mode_fallback (mode apiKey secretKey : String)
    (client : AmplitudeAPIClient) (ttl now now2 : Int)
    (loadCsv : Except Unit (List Row)) (rows : List Row) :
    ((apiKey = "" ∨ secretKey = "" ∨ constructApiParser client ttl now = .error ()) →
       loadCsv = .ok rows →
       initAmplitude mode apiKey secretKey client ttl now loadCsv = some (.csv rows)) ∧
    ((apiKey = "" ∨ secretKey = "" ∨ constructApiParser client ttl now = .error ()) →
       loadCsv = .error () →
       initAmplitude mode apiKey secretKey client ttl now loadCsv = none) ∧
    apiAmplitudeEvents now2 none = .ok (.errorPayload "Amplitude data not available" 404) := by
  refine ⟨?_, ?_, rfl⟩ <;> intro h hl
  · by_cases hc : mode = "api" ∧ apiKey ≠ "" ∧ secretKey ≠ ""
    · rcases h with h | h | h
      · exact absurd h hc.2.1
      · exact absurd h hc.2.2
      · simp [initAmplitude, hc, h, constructCsvParser, hl]
    · simp [initAmplitude, hc, constructCsvParser, hl]
  · by_cases hc : mode = "api" ∧ apiKey ≠ "" ∧ secretKey ≠ ""
    · rcases h with h | h | h
      · exact absurd h hc.2.1
      · exact absurd h hc.2.2
      · simp [initAmplitude, hc, h, constructCsvParser, hl]
    · simp [initAmplitude, hc, constructCsvParser, hl]

theorem amplitude_mode_fallback_witness :
    initAmplitude "api" "" "sk" exClient1 900 0 (.ok exRows1) = some (.csv exRows1) ∧
    apiAmplitudeEvents 0 none = .ok (.errorPayload "Amplitude data not available" 404) := by
  have h := amplitude_mode_fallback "api" "" "sk" exClient1 900 0 0 (.ok exRows1) exRows1
  exact ⟨h.1 (Or.inl rfl) rfl, h.2.2⟩

theorem dinsert_fresh {κ β : Type} [DecidableEq κ] (acc : List (κ × β)) (k : κ) (v : β)
    (h : k ∉ acc.map Prod.fst) : dinsert acc k v = acc ++ [(k, v)] := by
  induction acc with
  | nil => rfl
  | cons hd tl ih =>
    obtain ⟨k', v'⟩ := hd
    simp only [List.map_cons, List.mem_cons, not_or] at h
    rw [show dinsert ((k', v') :: tl) k v
        = if k' = k then (k', v) :: tl else (k', v') :: dinsert tl k v from rfl]
    rw [if_neg (fun he => h.1 he.symm), ih h.2]
    simp

theorem fetchProps_eq_map (client : AmplitudeAPIClient) (evs : List RawEvent)
    (acc : List (String × List RawProp))
    (hne : ∀ e ∈ evs, e.event_type ≠ "")
    (hnd : (evs.map (·.event_type)).Nodup)
    (hacc : ∀ e ∈ evs, e.event_type ∉ acc.map Prod.fst) :
    evs.foldl (fetchStep client) acc
      = acc ++ evs.map (fun e => (e.event_type, propsOf client e.event_type)) := by
  induction evs generalizing acc with
  | nil => simp
  | cons ev rest ih =>
    rw [List.map_cons, List.nodup_cons] at hnd
    obtain ⟨hhd, hndtl⟩ := hnd
    have h1 : ev.event_type ≠ "" := hne ev (by simp)
    have hstep : fetchStep client acc ev
        = acc ++ [(ev.event_type, propsOf client ev.event_type)] := by
      rw [fetchStep, if_neg h1, dinsert_fresh _ _ _ (hacc ev (by simp))]
    rw [List.foldl_cons, hstep,
      ih (acc ++ [(ev.event_type, propsOf client ev.event_type)])
        (fun e he => hne e (List.mem_cons_of_mem _ he)) hndtl ?_]
    · simp
    · intro e he
      simp only [List.map_append, List.mem_append, not_or]
      refine ⟨hacc e (List.mem_cons_of_mem _ he), ?_⟩
      simp only [List.map_cons, List.map_nil, List.mem_singleton]
      intro hcontra
      exact hhd (hcontra ▸ List.mem_map_of_mem (·.event_type) he)

theorem alookup_map_of_nodup {β : Type} (evs : List RawEvent) (f : RawEvent → β)
    (hnd : (evs.map (·.event_type)).Nodup) (e : RawEvent) (he : e ∈ evs) :
    alookup (evs.map (fun ev => (ev.event_type, f ev))) e.event_type = some (f e) := by
  induction evs with
  | nil => cases he
  | cons hd tl ih =>
    rw [List.map_cons, List.nodup_cons] at hnd
    obtain ⟨hhd, hndtl⟩ := hnd
    rcases List.mem_cons.mp he with rfl | htl
    · simp [alookup]
    · have hne : ¬ hd.event_type = e.event_type := by
        intro hcontra
        exact hhd (hcontra ▸ List.mem_map_of_mem (·.event_type) htl)
      rw [List.map_cons, show alookup ((hd.event_type, f hd) :: tl.map (fun ev => (ev.event_type, f ev))) e.event_type
          = if hd.event_type = e.event_type then some (f hd)
            else alookup (tl.map (fun ev => (ev.event_type, f ev))) e.event_type from rfl,
        if_neg hne]
      exact ih hndtl htl

/-- Claim C1: the cached snapshot is valid exactly when
`now − cache.timestamp < ttl`; a public query issued at time `T − 1` after
the last fetch reuses the snapshot and triggers no reader calls, while a
query issued at `T + 1` after the last fetch — or on an empty cache, whose
timestamp defaults to 0 (any wall-clock `now ≥ ttl`) — triggers exactly
one full refetch and then reads from the freshly stamped cache. -/
theorem amplitude_cache_staleness (client : AmplitudeAPIClient) (ttl : Int) (c : Cache)
    (now : Int) (evs : List RawEvent) (cats : List RawCategory)
    (hev : client.getEvents = .ok evs) (hcat : client.getCategories = .ok cats) :
    isCacheValid now ttl c = decide (now - c.timestamp < ttl) ∧
    apiEventsList client (c.timestamp + ttl - 1) ttl c = .ok ⟨apiEventsRead c, c, 0, 0⟩ ∧
    apiEventsList client (c.timestamp + ttl + 1) ttl c
      = .ok ⟨apiEventsRead (freshCache client (c.timestamp + ttl + 1) evs cats),
             freshCache client (c.timestamp + ttl + 1) evs cats,
             2 + propCalls evs, 1⟩ ∧
    (ttl ≤ now →
      apiEventsList client now ttl emptyCache
        = .ok ⟨apiEventsRead (freshCache client now evs cats),
               freshCache client now evs cats, 2 + propCalls evs, 1⟩) := by
  refine ⟨rfl, ?_, ?_, ?_⟩
  · have hv : isCacheValid (c.timestamp + ttl - 1) ttl c = true := by
      simp only [isCacheValid, decide_eq_true_eq]
      omega
    simp [apiEventsList, ensureApiData, hv]
  · have hv : isCacheValid (c.timestamp + ttl + 1) ttl c = false := by
      simp only [isCacheValid, decide_eq_false_iff_not]
      omega
    simp [apiEventsList, ensureApiData, fetchApiData, hv, hev, hcat]
  · intro h
    have hv : isCacheValid now ttl emptyCache = false := by
      simp only [isCacheValid, emptyCache, decide_eq_false_iff_not]
      omega
    simp [apiEventsList, ensureApiData, fetchApiData, hv, hev, hcat]

theorem amplitude_cache_staleness_witness :
    apiEventsList exClient1 (exCache1.timestamp + 900 - 1) 900 exCache1
      = .ok ⟨apiEventsRead exCache1, exCache1, 0, 0⟩ ∧
    apiEventsList exClient1 2000 900 emptyCache
      = .ok ⟨apiEventsRead (freshCache exClient1 2000
               [exEvent "signup" true, exEvent "purchase" false] [⟨1, "Growth"⟩]),
             freshCache exClient1 2000
               [exEvent "signup" true, exEvent "purchase" false] [⟨1, "Growth"⟩],
             2 + propCalls [exEvent "signup" true, exEvent "purchase" false], 1⟩ := by
  have h := amplitude_cache_staleness exClient1 900 exCache1 2000
    [exEvent "signup" true, exEvent "purchase" false] [⟨1, "Growth"⟩] rfl rfl
  exact ⟨h.2.1, h.2.2.2 (by decide)⟩

/-- Claim C2: during a refetch over N events (distinct nonempty names), if
the per-event property fetch raises for exactly one event and succeeds for
the others, the refetch still completes, the snapshot holds all N events,
the failing event's property list is the empty sequence, and every event
whose fetch succeeds keeps its fetched list. -/
theorem amplitude_fetch_isolation (client : AmplitudeAPIClient)
    (evs : List RawEvent) (cats : List RawCategory) (e0 : RawEvent) (now ttl : Int)
    (hev : client.getEvents = .ok evs) (hcat : client.getCategories = .ok cats)
    (hne : ∀ e ∈ evs, e.event_type ≠ "")
    (hnd : (evs.map (·.event_type)).Nodup)
    (he0 : e0 ∈ evs)
    (hfail : client.getEventProperties e0.event_type = .error ())
    (hstale : ttl ≤ now) :
    (fetchApiData client now ttl emptyCache).1 = .ok (freshCache client now evs cats) ∧
    (freshCache client now evs cats).events = evs ∧
    alookup (freshCache client now evs cats).propsByEvent e0.event_type = some [] ∧
    (∀ e ∈ evs, ∀ ps, client.getEventProperties e.event_type = .ok ps →
       alookup (freshCache client now evs cats).propsByEvent e.event_type = some ps) := by
  have hv : isCacheValid now ttl emptyCache = false := by
    simp only [isCacheValid, emptyCache, decide_eq_false_iff_not]
    omega
  have hfp : (freshCache client now evs cats).propsByEvent
      = evs.map (fun e => (e.event_type, propsOf client e.event_type)) := by
    simpa [freshCache, fetchProps] using
      fetchProps_eq_map client evs [] hne hnd (by simp)
  refine ⟨?_, rfl, ?_, ?_⟩
  · simp [fetchApiData, hv, hev, hcat]
  · rw [hfp, alookup_map_of_nodup evs _ hnd e0 he0]
    simp [propsOf, hfail]
  · intro e he ps hps
    rw [hfp, alookup_map_of_nodup evs _ hnd e he]
    simp [propsOf, hps]

theorem amplitude_fetch_isolation_witness :
    alookup (freshCache exClient2 1000
        [exEvent "signup" true, exEvent "purchase" false] []).propsByEvent "purchase"
      = some [] ∧
    alookup (freshCache exClient2 1000
        [exEvent "signup" true, exEvent "purchase" false] []).propsByEvent "signup"
      = some [exProp "plan" "the plan" "string"] := by
  have h := amplitude_fetch_isolation exClient2
    [exEvent "signup" true, exEvent "purchase" false] [] (exEvent "purchase" false)
    1000 900 rfl rfl (by decide) (by decide) (by decide) (by decide) (by decide)
  exact ⟨h.2.2.1, h.2.2.2 (exEvent "signup" true) (by decide) _ (by decide)⟩

theorem mapM_ok_of_forall {α β : Type} (f : α → Except Unit β) (g : α → β) (l : List α)
    (h : ∀ x ∈ l, f x = .ok (g x)) : l.mapM f = .ok (l.map g) := by
  induction l with
  | nil => rfl
  | cons x xs ih =>
    rw [List.mapM_cons, h x (by simp), ih (fun y hy => h y (List.mem_cons_of_mem _ hy))]
    rfl

theorem parseCountD_eq (s : String) (n : Int) (h : parseCount s = .ok n) :
    parseCountD s = n := by
  unfold parseCount at h
  unfold parseCountD
  by_cases hs : s = ""
  · rw [if_pos hs] at h ⊢
    cases h
    rfl
  · rw [if_neg hs] at h ⊢
    rcases hp : pyInt? s with _ | m
    · rw [hp] at h
      cases h
    · rw [hp] at h
      cases h
      simp [hp]

theorem mkCsvEventRec_ok (r : Row)
    (hv : parseCount (pyStrip (rowGet r "Event 180 Day Volume" "0")) ≠ .error ())
    (hq : parseCount (pyStrip (rowGet r "Event 180 Day Queries" "0")) ≠ .error ()) :
    mkCsvEventRec r = .ok (csvEventRecTotal r) := by
  rcases hpv : parseCount (pyStrip (rowGet r "Event 180 Day Volume" "0")) with e | nv
  · exact absurd (by rw [hpv]) hv
  · rcases hpq : parseCount (pyStrip (rowGet r "Event 180 Day Queries" "0")) with e | nq
    · exact absurd (by rw [hpq]) hq
    · rw [mkCsvEventRec, hpv, hpq]
      show Except.ok _ = _
      rw [csvEventRecTotal, parseCountD_eq _ _ hpv, parseCountD_eq _ _ hpq]

/-- Claim C8 counterexample: on a row whose 180-day volume cell is the
non-numeric text `"abc"`, the CSV events-list query raises `ValueError`
(`int("abc")`) instead of returning zero for that field, and in particular
does not return the record the claim expects. -/
theorem csv_numeric_parsing_counterexample :
    csvEventsList [c8BadRow] = .error () ∧
    csvEventsList [c8BadRow] ≠ .ok [csvEventRecTotal c8BadRow] := by
  decide

/-- Claim C8 (amended): in file mode the events-list query parses the
180-day volume and query-count text columns with Python `int()`; a blank
(after strip) cell defaults to zero, while a nonblank non-numeric cell
makes the query raise `ValueError` rather than defaulting — only blanks
degrade to zero. -/
theorem csv_numeric_parsing (rows : List Row)
    (h : ∀ r ∈ rows.filter eventRowFilter,
        parseCount (pyStrip (rowGet r "Event 180 Day Volume" "0")) ≠ .error () ∧
        parseCount (pyStrip (rowGet r "Event 180 Day Queries" "0")) ≠ .error ()) :
    csvEventsList rows = .ok ((rows.filter eventRowFilter).map csvEventRecTotal) ∧
    (∀ r ∈ rows.filter eventRowFilter,
        pyStrip (rowGet r "Event 180 Day Volume" "0") = "" →
        (csvEventRecTotal r).volume_180_days = 0) ∧
    (∀ r ∈ rows.filter eventRowFilter,
        pyStrip (rowGet r "Event 180 Day Queries" "0") = "" →
        (csvEventRecTotal r).queries_180_days = 0) := by
  refine ⟨mapM_ok_of_forall _ _ _ (fun r hr => mkCsvEventRec_ok r (h r hr).1 (h r hr).2),
    ?_, ?_⟩
  · intro r _ hb
    simp [csvEventRecTotal, parseCountD, hb]
  · intro r _ hb
    simp [csvEventRecTotal, parseCountD, hb]

theorem csv_numeric_parsing_witness :
    csvEventsList c8GoodRows = .ok ((c8GoodRows.filter eventRowFilter).map csvEventRecTotal) :=
  (csv_numeric_parsing c8GoodRows (by decide)).1

theorem mem_name_insertOcc (acc : List URec) (p : PropRecA) (x : String) :
    x ∈ (insertOcc acc p).map (·.name)
      ↔ x ∈ acc.map (·.name) ∨ x = p.name := by
  induction acc with
  | nil => simp [insertOcc, initURec]
  | cons u rest ih =>
    by_cases h : u.name = p.name
    · simp only [insertOcc, if_pos h, List.map_cons, List.mem_cons]
      have hn : (updateURec u p).name = u.name := rfl
      rw [hn, ← h]
      tauto
    · simp only [insertOcc, if_neg h, List.map_cons, List.mem_cons, ih]
      tauto

theorem nodup_name_insertOcc (acc : List URec) (p : PropRecA)
    (h : (acc.map (·.name)).Nodup) : ((insertOcc acc p).map (·.name)).Nodup := by
  induction acc with
  | nil => simp [insertOcc, initURec]
  | cons u rest ih =>
    rw [List.map_cons, List.nodup_cons] at h
    obtain ⟨h1, h2⟩ := h
    by_cases hc : u.name = p.name
    · simp only [insertOcc, if_pos hc, List.map_cons, List.nodup_cons]
      exact ⟨h1, h2⟩
    · simp only [insertOcc, if_neg hc, List.map_cons, List.nodup_cons]
      refine ⟨?_, ih h2⟩
      rw [mem_name_insertOcc]
      rintro (hmem | hmem)
      · exact h1 hmem
      · exact hc hmem

theorem mem_names_foldl (occs : List PropRecA) (acc : List URec) (x : String) :
    x ∈ (occs.foldl insertOcc acc).map (·.name)
      ↔ x ∈ acc.map (·.name) ∨ x ∈ occs.map (·.name) := by
  induction occs generalizing acc with
  | nil => simp
  | cons p ps ih =>
    rw [List.foldl_cons, ih, mem_name_insertOcc]
    simp only [List.map_cons, List.mem_cons]
    tauto

theorem nodup_names_foldl (occs : List PropRecA) (acc : List URec)
    (h : (acc.map (·.name)).Nodup) :
    ((occs.foldl insertOcc acc).map (·.name)).Nodup := by
  induction occs generalizing acc with
  | nil => exact h
  | cons p ps ih => exact ih _ (nodup_name_insertOcc _ _ h)

theorem mem_buildUnique_names (occs : List PropRecA) (x : String) :
    x ∈ (buildUnique occs).map (·.name) ↔ x ∈ occs.map (·.name) := by
  simpa [buildUnique] using mem_names_foldl occs [] x

theorem nodup_buildUnique_names (occs : List PropRecA) :
    ((buildUnique occs).map (·.name)).Nodup :=
  nodup_names_foldl occs [] (by simp)

theorem cntU_insertOcc (acc : List URec) (p : PropRecA) (n : String) :
    cntU n (insertOcc acc p) = cntU n acc + (if p.name = n then 1 else 0) := by
  induction acc with
  | nil =>
    by_cases h : p.name = n <;> simp [insertOcc, cntU, initURec, h]
  | cons u rest ih =>
    by_cases hc : u.name = p.name
    · simp only [insertOcc, if_pos hc, cntU, List.map_cons, List.sum_cons, updateURec]
      by_cases hn : u.name = n
      · have hpn : p.name = n := hc.symm.trans hn
        simp only [hn, hpn, if_true, ite_true]
        omega
      · have hpn : ¬ p.name = n := fun h2 => hn (hc.trans h2)
        simp [hn, hpn]
    · simp only [insertOcc, if_neg hc, cntU, List.map_cons, List.sum_cons]
      have h2 := ih
      simp only [cntU] at h2
      omega

theorem cntU_foldl (occs : List PropRecA) (acc : List URec) (n : String) :
    cntU n (occs.foldl insertOcc acc)
      = cntU n acc + occs.countP (fun p => p.name = n) := by
  induction occs generalizing acc with
  | nil => simp
  | cons p ps ih =>
    rw [List.foldl_cons, ih, cntU_insertOcc, List.countP_cons]
    by_cases h : p.name = n <;> (simp [h]; try omega)

theorem cntU_of_not_mem (l : List URec) (n : String)
    (h : n ∉ l.map (·.name)) : cntU n l = 0 := by
  induction l with
  | nil => rfl
  | cons u rest ih =>
    simp only [List.map_cons, List.mem_cons, not_or] at h
    have hne : ¬ u.name = n := fun h2 => h.1 h2.symm
    simp only [cntU, List.map_cons, List.sum_cons, if_neg hne]
    have h2 := ih h.2
    simp only [cntU] at h2
    omega

theorem count_of_mem_nodup (l : List URec)
    (hnd : (l.map (·.name)).Nodup) (u : URec) (hu : u ∈ l) :
    u.event_count = cntU u.name l := by
  induction l with
  | nil => cases hu
  | cons v rest ih =>
    rw [List.map_cons, List.nodup_cons] at hnd
    obtain ⟨h1, h2⟩ := hnd
    rcases List.mem_cons.mp hu with rfl | htl
    · simp only [cntU, List.map_cons, List.sum_cons, if_true, ite_true]
      have h3 := cntU_of_not_mem rest u.name h1
      simp only [cntU] at h3
      omega
    · have hvne : ¬ v.name = u.name :=
        fun h3 => h1 (h3 ▸ List.mem_map_of_mem (·.name) htl)
      simp only [cntU, List.map_cons, List.sum_cons, if_neg hvne]
      have h3 := ih h2 htl
      simp only [cntU] at h3
      omega

theorem mem_insertOcc_nodup (acc : List URec) (hnd : (acc.map (·.name)).Nodup)
    (p : PropRecA) (v : URec) (hv : v ∈ insertOcc acc p) :
    (v ∈ acc ∧ v.name ≠ p.name)
      ∨ (∃ u, u ∈ acc ∧ u.name = p.name ∧ v = updateURec u p)
      ∨ (p.name ∉ acc.map (·.name) ∧ v = initURec p) := by
  induction acc with
  | nil =>
    right; right
    exact ⟨by simp, by simpa [insertOcc] using hv⟩
  | cons u rest ih =>
    rw [List.map_cons, List.nodup_cons] at hnd
    obtain ⟨h1, h2⟩ := hnd
    by_cases hc : u.name = p.name
    · rw [insertOcc, if_pos hc] at hv
      rcases List.mem_cons.mp hv with rfl | htl
      · right; left
        exact ⟨u, List.mem_cons_self _ _, hc, rfl⟩
      · left
        refine ⟨List.mem_cons_of_mem _ htl, ?_⟩
        intro hvp
        exact h1 (hc ▸ hvp ▸ List.mem_map_of_mem (·.name) htl)
    · rw [insertOcc, if_neg hc] at hv
      rcases List.mem_cons.mp hv with rfl | htl
      · left
        exact ⟨List.mem_cons_self _ _, fun hvp => hc hvp⟩
      · rcases ih h2 htl with ⟨hm, hne⟩ | ⟨w, hw, hwn, rfl⟩ | ⟨hnm, rfl⟩
        · exact Or.inl ⟨List.mem_cons_of_mem _ hm, hne⟩
        · exact Or.inr (Or.inl ⟨w, List.mem_cons_of_mem _ hw, hwn, rfl⟩)
        · refine Or.inr (Or.inr ⟨?_, rfl⟩)
          simp only [List.map_cons, List.mem_cons, not_or]
          exact ⟨fun h3 => hc h3.symm, hnm⟩

theorem buildUnique_rep (f : URec → String) (g : PropRecA → String)
    (hupd : ∀ u p, f (updateURec u p)
        = if f u = "" ∧ g p ≠ "" then g p else f u)
    (hinit : ∀ p, f (initURec p) = g p)
    (hname_upd : ∀ u p, (updateURec u p).name = u.name)
    (hname_init : ∀ p, (initURec p).name = p.name) :
    ∀ (occs : List PropRecA) (v : URec), v ∈ buildUnique occs →
      f v = firstNonEmpty ((occs.filter (fun q => q.name = v.name)).map g) := by
  intro occs
  induction occs using List.reverseRecOn with
  | nil => intro v hv; simp [buildUnique] at hv
  | append_singleton occs p ih =>
    intro v hv
    have hB : buildUnique (occs ++ [p]) = insertOcc (buildUnique occs) p := by
      simp [buildUnique, List.foldl_append]
    rw [hB] at hv
    rcases mem_insertOcc_nodup (buildUnique occs) (nodup_buildUnique_names occs) p v hv with
      ⟨hvB, hne⟩ | ⟨u, huB, hup, rfl⟩ | ⟨hnm, rfl⟩
    · rw [ih v hvB]
      have hfil : (occs ++ [p]).filter (fun q => q.name = v.name)
          = occs.filter (fun q => q.name = v.name) := by
        rw [List.filter_append]
        have hsing : [p].filter (fun q => q.name = v.name) = [] := by
          simp [List.filter_cons, Ne.symm hne]
        rw [hsing, List.append_nil]
      rw [hfil]
    · rw [hupd u p, ih u huB, hname_upd u p]
      have hfil : (occs ++ [p]).filter (fun q => q.name = u.name)
          = occs.filter (fun q => q.name = u.name) ++ [p] := by
        rw [List.filter_append]
        congr 1
        simp [List.filter_cons, hup.symm]
      rw [hfil, List.map_append]
      simp only [firstNonEmpty, List.find?_append]
      rcases hfind : ((occs.filter (fun q => q.name = u.name)).map g).find?
          (fun s => s ≠ "") with _ | d
      · rw [hfind]
        by_cases hgp : g p = "" <;>
          simp [List.find?_cons, hgp, Option.or]
      · have hd : d ≠ "" := by
          have h3 := List.find?_some hfind
          simpa using h3
        rw [hfind]
        simp [hd, Option.or]
    · have hnmoccs : p.name ∉ occs.map (·.name) := by
        rw [← mem_buildUnique_names]
        exact hnm
      rw [hinit p, hname_init p]
      have hfil : occs.filter (fun q => q.name = p.name) = [] := by
        rw [List.filter_eq_nil_iff]
        intro q hq
        simp only [decide_eq_true_eq]
        exact fun h3 => hnmoccs (h3 ▸ List.mem_map_of_mem (·.name) hq)
      rw [List.filter_append, hfil, List.nil_append]
      have hsing : [p].filter (fun q => q.name = p.name) = [p] := by
        simp [List.filter_cons]
      rw [hsing]
      by_cases hgp : g p = "" <;>
        simp [firstNonEmpty, List.find?_cons, hgp]

/-- Claim C7 counterexample: on an input of 3 events each having 2 shared
properties and 1 distinct property there are 3 distinct singleton
properties, so the unique-properties reduction reports 5 distinct
properties (2 with occurrence count 3 and 3 with count 1), not "exactly 4"
as the claim states. -/
theorem unique_properties_scenario_counterexample :
    (uniqueReduce (flatProps c7Pbe)).length = 5 ∧
    (uniqueReduce (flatProps c7Pbe)).length ≠ 4 := by
  decide

/-- Claim C7 (amended): the unique-properties query groups all property
occurrences across every event by property identifier; each output record
carries the first nonempty description and type encountered for that
identifier (empty when none is) and the count of its occurrences; the
output is sorted descending by occurrence count with one record per
distinct identifier; and for 3 events each having 2 shared properties and
1 distinct property it reports exactly 5 distinct properties — the 2
shared ones with occurrence count 3 and the 3 distinct ones with count 1. -/
theorem unique_properties_reduction (occs : List PropRecA) :
    List.Sorted (fun a b => b.event_count ≤ a.event_count) (uniqueReduce occs) ∧
    (∀ u ∈ uniqueReduce occs,
        u.event_count = occs.countP (fun p => p.name = u.name)) ∧
    (∀ u ∈ uniqueReduce occs,
        u.description = repDesc u.name occs ∧ u.type = repType u.name occs) ∧
    ((uniqueReduce occs).map (·.name)).Nodup ∧
    (∀ n, n ∈ (uniqueReduce occs).map (·.name) ↔ n ∈ occs.map (·.name)) ∧
    (uniqueReduce (flatProps c7Pbe)).map (fun u => (u.name, u.event_count))
      = [("user_id", 3), ("session_id", 3), ("plan", 1), ("amount", 1), ("reason", 1)] := by
  have hperm : (uniqueReduce occs).Perm (buildUnique occs) :=
    List.perm_insertionSort (fun a b : URec => b.event_count ≤ a.event_count)
      (buildUnique occs)
  refine ⟨List.sorted_insertionSort _ _, ?_, ?_, ?_, ?_, by decide⟩
  · intro u hu
    have huB : u ∈ buildUnique occs := hperm.mem_iff.mp hu
    have h1 := count_of_mem_nodup (buildUnique occs) (nodup_buildUnique_names occs) u huB
    have h2 := cntU_foldl occs [] u.name
    rw [h1, show (buildUnique occs) = occs.foldl insertOcc [] from rfl, h2]
    simp [cntU]
  · intro u hu
    have huB : u ∈ buildUnique occs := hperm.mem_iff.mp hu
    constructor
    · exact buildUnique_rep (·.description) (·.description)
        (fun _ _ => rfl) (fun _ => rfl) (fun _ _ => rfl) (fun _ => rfl) occs u huB
    · exact buildUnique_rep (·.type) (·.type)
        (fun _ _ => rfl) (fun _ => rfl) (fun _ _ => rfl) (fun _ => rfl) occs u huB
  · exact (hperm.map (·.name)).nodup_iff.mpr (nodup_buildUnique_names occs)
  · intro n
    rw [(hperm.map (·.name)).mem_iff, mem_buildUnique_names]

theorem unique_properties_reduction_witness :
    ({ name := "user_id", description := "uid", type := "string", is_array := false,
       schema_status := "", first_seen := "", last_seen := "",
       event_count := 3 } : URec).event_count
      = (flatProps c7Pbe).countP (fun p => p.name = "user_id") := by
  have h := (unique_properties_reduction (flatProps c7Pbe)).2.1
    { name := "user_id", description := "uid", type := "string", is_array := false,
      schema_status := "", first_seen := "", last_seen := "", event_count := 3 }
    (by decide)
  simpa using h

/-- Claim C9: for any input and any two iteration orders of its property
occurrences (running the reduction twice on the same input is the
degenerate identity permutation), the unique-properties reduction yields
the same multiset of (property identifier, occurrence count) pairs. -/
theorem unique_properties_order_invariance (l1 l2 : List PropRecA) (h : l1.Perm l2) :
    Multiset.ofList ((uniqueReduce l1).map (fun u => (u.name, u.event_count)))
      = Multiset.ofList ((uniqueReduce l2).map (fun u => (u.name, u.event_count))) := by
  rw [Multiset.coe_eq_coe]
  have key : ∀ l : List PropRecA,
      (buildUnique l).map (fun u => (u.name, u.event_count))
        = ((buildUnique l).map (·.name)).map
            (fun n => (n, l.countP (fun p => p.name = n))) := by
    intro l
    rw [List.map_map]
    apply List.map_congr_left
    intro u hu
    have h1 := count_of_mem_nodup (buildUnique l) (nodup_buildUnique_names l) u hu
    have h2 := cntU_foldl l [] u.name
    have h3 : u.event_count = l.countP (fun p => p.name = u.name) := by
      rw [h1, show (buildUnique l) = l.foldl insertOcc [] from rfl, h2]
      simp [cntU]
    simp only [Function.comp_apply]
    rw [h3]
  have hperm1 : List.Perm
      ((uniqueReduce l1).map (fun u => (u.name, u.event_count)))
      ((buildUnique l1).map (fun u => (u.name, u.event_count))) :=
    (List.perm_insertionSort _ _).map _
  have hperm2 : List.Perm
      ((uniqueReduce l2).map (fun u => (u.name, u.event_count)))
      ((buildUnique l2).map (fun u => (u.name, u.event_count))) :=
    (List.perm_insertionSort _ _).map _
  have hnames : List.Perm ((buildUnique l1).map (·.name))
      ((buildUnique l2).map (·.name)) := by
    apply (List.perm_ext_iff_of_nodup
      (nodup_buildUnique_names l1) (nodup_buildUnique_names l2)).mpr
    intro n
    rw [mem_buildUnique_names, mem_buildUnique_names]
    exact (h.map (·.name)).mem_iff
  have hmid : List.Perm
      (((buildUnique l1).map (·.name)).map
        (fun n => (n, l1.countP (fun p => p.name = n))))
      (((buildUnique l2).map (·.name)).map
        (fun n => (n, l2.countP (fun p => p.name = n)))) := by
    have hsame : ((buildUnique l2).map (·.name)).map
          (fun n => (n, l1.countP (fun p => p.name = n)))
        = ((buildUnique l2).map (·.name)).map
          (fun n => (n, l2.countP (fun p => p.name = n))) := by
      apply List.map_congr_left
      intro n _
      rw [List.Perm.countP_eq _ h]
    rw [← hsame]
    exact hnames.map _
  have step1 : List.Perm
      ((uniqueReduce l1).map (fun u => (u.name, u.event_count)))
      (((buildUnique l1).map (·.name)).map
        (fun n => (n, l1.countP (fun p => p.name = n)))) := by
    rw [← key l1]
    exact hperm1
  have step2 : List.Perm
      ((uniqueReduce l2).map (fun u => (u.name, u.event_count)))
      (((buildUnique l2).map (·.name)).map
        (fun n => (n, l2.countP (fun p => p.name = n)))) := by
    rw [← key l2]
    exact hperm2
  exact step1.trans (hmid.trans step2.symm)

theorem unique_properties_order_invariance_witness :
    Multiset.ofList ((uniqueReduce c9l1).map (fun u => (u.name, u.event_count)))
      = Multiset.ofList ((uniqueReduce c9l2).map (fun u => (u.name, u.event_count))) :=
  unique_properties_order_invariance c9l1 c9l2 (by decide)

theorem mem_insertOcc_cases (acc : List URec) (p : PropRecA) (v : URec)
    (hv : v ∈ insertOcc acc p) :
    v ∈ acc ∨ (∃ u ∈ acc, v = updateURec u p) ∨ v = initURec p := by
  induction acc with
  | nil =>
    right; right
    simpa [insertOcc] using hv
  | cons u rest ih =>
    by_cases hc : u.name = p.name
    · rw [insertOcc, if_pos hc] at hv
      rcases List.mem_cons.mp hv with rfl | htl
      · exact Or.inr (Or.inl ⟨u, List.mem_cons_self _ _, rfl⟩)
      · exact Or.inl (List.mem_cons_of_mem _ htl)
    · rw [insertOcc, if_neg hc] at hv
      rcases List.mem_cons.mp hv with rfl | htl
      · exact Or.inl (List.mem_cons_self _ _)
      · rcases ih htl with hm | ⟨u2, hu2, rfl⟩ | rfl
        · exact Or.inl (List.mem_cons_of_mem _ hm)
        · exact Or.inr (Or.inl ⟨u2, List.mem_cons_of_mem _ hu2, rfl⟩)
        · exact Or.inr (Or.inr rfl)

theorem foldl_insertOcc_pres (P : URec → Prop) (occs : List PropRecA) (acc : List URec)
    (hupd : ∀ u p, P u → P (updateURec u p))
    (hinit : ∀ p, P (initURec p))
    (hacc : ∀ v ∈ acc, P v) : ∀ v ∈ occs.foldl insertOcc acc, P v := by
  induction occs generalizing acc with
  | nil => exact hacc
  | cons p ps ih =>
    rw [List.foldl_cons]
    apply ih
    intro v hv
    rcases mem_insertOcc_cases acc p v hv with hm | ⟨u, hu, rfl⟩ | rfl
    · exact hacc v hm
    · exact hupd u p (hacc u hu)
    · exact hinit p

theorem mem_insertOccC_cases (acc : List URecC) (r : Row) (v : URecC)
    (hv : v ∈ insertOccC acc r) :
    v ∈ acc ∨ (∃ u ∈ acc, v = updateURecC u r) ∨ v = updateURecC (initURecC r) r := by
  induction acc with
  | nil =>
    right; right
    simpa [insertOccC] using hv
  | cons u rest ih =>
    by_cases hc : u.name = rowGet r "Event Property Name" ""
    · rw [insertOccC, if_pos hc] at hv
      rcases List.mem_cons.mp hv with rfl | htl
      · exact Or.inr (Or.inl ⟨u, List.mem_cons_self _ _, rfl⟩)
      · exact Or.inl (List.mem_cons_of_mem _ htl)
    · rw [insertOccC, if_neg hc] at hv
      rcases List.mem_cons.mp hv with rfl | htl
      · exact Or.inl (List.mem_cons_self _ _)
      · rcases ih htl with hm | ⟨u2, hu2, rfl⟩ | rfl
        · exact Or.inl (List.mem_cons_of_mem _ hm)
        · exact Or.inr (Or.inl ⟨u2, List.mem_cons_of_mem _ hu2, rfl⟩)
        · exact Or.inr (Or.inr rfl)

theorem foldl_insertOccC_pres (P : URecC → Prop) (rs : List Row) (acc : List URecC)
    (hupd : ∀ u r, r ∈ rs → P u → P (updateURecC u r))
    (hinit : ∀ r ∈ rs, P (updateURecC (initURecC r) r))
    (hacc : ∀ v ∈ acc, P v) : ∀ v ∈ rs.foldl insertOccC acc, P v := by
  induction rs generalizing acc with
  | nil => exact hacc
  | cons r rs2 ih =>
    rw [List.foldl_cons]
    apply ih
    · intro u r2 hr2 hu
      exact hupd u r2 (List.mem_cons_of_mem _ hr2) hu
    · intro r2 hr2
      exact hinit r2 (List.mem_cons_of_mem _ hr2)
    · intro v hv
      rcases mem_insertOccC_cases acc r v hv with hm | ⟨u, hu, rfl⟩ | rfl
      · exact hacc v hm
      · exact hupd u r (List.mem_cons_self _ _) (hacc u hu)
      · exact hinit r (List.mem_cons_self _ _)

theorem updateURecC_is_array (u : URecC) (r : Row) :
    (updateURecC u r).is_array = u.is_array := by
  simp only [updateURecC]
  split_ifs <;> rfl

theorem dinsertAppend_pres {κ β : Type} [DecidableEq κ] (P : β → Prop)
    (acc : List (κ × List β)) (k : κ) (v : β)
    (hacc : ∀ kv ∈ acc, ∀ x ∈ kv.2, P x) (hv : P v) :
    ∀ kv ∈ dinsertAppend acc k v, ∀ x ∈ kv.2, P x := by
  induction acc with
  | nil =>
    intro kv hkv x hx
    simp only [dinsertAppend, List.mem_singleton] at hkv
    subst hkv
    simp only [List.mem_singleton] at hx
    subst hx
    exact hv
  | cons hd rest ih =>
    obtain ⟨k2, vs⟩ := hd
    intro kv hkv x hx
    by_cases hc : k2 = k
    · rw [dinsertAppend, if_pos hc] at hkv
      rcases List.mem_cons.mp hkv with rfl | htl
      · simp only [List.mem_append, List.mem_singleton] at hx
        rcases hx with hx | rfl
        · exact hacc (k2, vs) (List.mem_cons_self _ _) x hx
        · exact hv
      · exact hacc kv (List.mem_cons_of_mem _ htl) x hx
    · rw [dinsertAppend, if_neg hc] at hkv
      rcases List.mem_cons.mp hkv with rfl | htl
      · exact hacc (k2, vs) (List.mem_cons_self _ _) x hx
      · exact ih (fun kv2 h2 => hacc kv2 (List.mem_cons_of_mem _ h2)) kv htl x hx

theorem foldl_dinsertAppend_pres (P : PropRecC → Prop) (rs : List Row)
    (acc : List (String × List PropRecC))
    (h : ∀ r ∈ rs, P (mkCsvPropRec r))
    (hacc : ∀ kv ∈ acc, ∀ x ∈ kv.2, P x) :
    ∀ kv ∈ rs.foldl
        (fun a r => dinsertAppend a (rowGet r "Object Name" "") (mkCsvPropRec r)) acc,
      ∀ x ∈ kv.2, P x := by
  induction rs generalizing acc with
  | nil => exact hacc
  | cons r rs2 ih =>
    rw [List.foldl_cons]
    apply ih
    · intro r2 hr2
      exact h r2 (List.mem_cons_of_mem _ hr2)
    · exact dinsertAppend_pres P acc _ _ hacc (h r (List.mem_cons_self _ _))

theorem csvPropsByEvent_pres (P : PropRecC → Prop) (rows : List Row)
    (h : ∀ r ∈ rows.filter propEventRowFilter, P (mkCsvPropRec r)) :
    ∀ kv ∈ csvPropsByEvent rows, ∀ x ∈ kv.2, P x :=
  foldl_dinsertAppend_pres P (rows.filter propEventRowFilter) [] h (by simp)

theorem apiPropsRead_mem (c : Cache) (kv : String × List PropRecA)
    (hkv : kv ∈ apiPropsRead c) (p : PropRecA) (hp : p ∈ kv.2) :
    ∃ q, p = mkApiPropRec q := by
  unfold apiPropsRead at hkv
  obtain ⟨kv0, _, rfl⟩ := List.mem_map.mp hkv
  obtain ⟨q, _, rfl⟩ := List.mem_map.mp hp
  exact ⟨q, rfl⟩

/-- Claim C5 counterexample: on equivalent one-property datasets,
`get_properties_by_event` returns records with the same key sets in both
modes but *different* value types: `required`/`is_array` are booleans in
API mode and raw CSV text (strings) in file mode, so the claimed
"identical value types" fails. -/
theorem mode_shape_counterexample :
    ((apiPropsRead c5Cache).map (fun kv => kv.2.map (fun p => dictKeys (propDictA p))))
      = ((csvPropsByEvent c5Rows).map (fun kv => kv.2.map (fun p => dictKeys (propDictC p)))) ∧
    ((apiPropsRead c5Cache).map (fun kv => kv.2.map (fun p => dictTys (propDictA p))))
      ≠ ((csvPropsByEvent c5Rows).map (fun kv => kv.2.map (fun p => dictTys (propDictC p)))) := by
  decide

/-- Claim C5 (amended): for any fixed underlying dataset represented in
both modes, every public query (events list, properties summary,
properties by event, unique properties list, platform overview) returns
records with identical key sets across modes, and identical value types
except for the `required` and `is_array` fields of property records, which
are booleans in API mode but pass through the CSV cell text (strings) in
file mode whenever those columns are present; fields unavailable in one
mode equal their documented defaults (empty string, zero, and the
last-updated label `"Live"` in API mode versus `"CSV snapshot"` in file
mode) rather than being omitted. -/
theorem mode_shape_equivalence (c : Cache) (rows : List Row) (outE : List EventRec)
    (_hcsv : csvEventsList rows = .ok outE)
    (hcols : ∀ r ∈ rows, (rowGet? r "Property Required").isSome
        ∧ (rowGet? r "Property Is Array").isSome) :
    (∀ e ∈ apiEventsRead c,
        dictKeys (eventDict e) = eventKeys ∧ dictTys (eventDict e) = eventTys ∧
        e.schema_status = "" ∧ e.volume_180_days = 0 ∧ e.queries_180_days = 0 ∧
        e.first_seen = "" ∧ e.last_seen = "") ∧
    (∀ e ∈ outE, dictKeys (eventDict e) = eventKeys ∧ dictTys (eventDict e) = eventTys) ∧
    (∀ kv ∈ apiPropsRead c, ∀ p ∈ kv.2,
        dictKeys (propDictA p) = propKeys ∧ dictTys (propDictA p) = propTysApi ∧
        p.schema_status = "" ∧ p.first_seen = "" ∧ p.last_seen = "") ∧
    (∀ kv ∈ csvPropsByEvent rows, ∀ p ∈ kv.2,
        dictKeys (propDictC p) = propKeys ∧ dictTys (propDictC p) = propTysCsv) ∧
    (∀ u ∈ apiUniqueList (apiPropsRead c),
        dictKeys (uniqueDictA u) = uniqueKeys ∧ dictTys (uniqueDictA u) = uniqueTysApi ∧
        u.first_seen = "" ∧ u.last_seen = "") ∧
    (∀ u ∈ csvUniqueList rows,
        dictKeys (uniqueDictC u) = uniqueKeys ∧ dictTys (uniqueDictC u) = uniqueTysCsv) ∧
    (dictKeys (eventsSummaryDict (eventsSummaryApi (apiEventsRead c)))
        = dictKeys (eventsSummaryDict (eventsSummaryCsv rows)) ∧
      dictTys (eventsSummaryDict (eventsSummaryApi (apiEventsRead c)))
        = dictTys (eventsSummaryDict (eventsSummaryCsv rows))) ∧
    (dictKeys (propsSummaryDict (propsSummaryApi (apiPropsRead c)))
        = dictKeys (propsSummaryDict (propsSummaryCsv rows)) ∧
      dictTys (propsSummaryDict (propsSummaryApi (apiPropsRead c)))
        = dictTys (propsSummaryDict (propsSummaryCsv rows))) ∧
    (dictKeys (overviewDict (platformOverviewApi c))
        = dictKeys (overviewDict (platformOverviewCsv rows)) ∧
      dictTys (overviewDict (platformOverviewApi c))
        = dictTys (overviewDict (platformOverviewCsv rows))) ∧
    (platformOverviewApi c).last_updated = "Live" ∧
    (platformOverviewCsv rows).last_updated = "CSV snapshot" := by
  refine ⟨?_, ?_, ?_, ?_, ?_, ?_, ⟨rfl, rfl⟩, ⟨rfl, rfl⟩, ⟨rfl, rfl⟩, rfl, rfl⟩
  · intro e he
    obtain ⟨ev, _, rfl⟩ := List.mem_map.mp he
    exact ⟨rfl, rfl, rfl, rfl, rfl, rfl, rfl⟩
  · intro e _
    exact ⟨rfl, rfl⟩
  · intro kv hkv p hp
    obtain ⟨q, rfl⟩ := apiPropsRead_mem c kv hkv p hp
    exact ⟨rfl, rfl, rfl, rfl, rfl⟩
  · apply csvPropsByEvent_pres
      (fun p => dictKeys (propDictC p) = propKeys ∧ dictTys (propDictC p) = propTysCsv)
    intro r hr
    have hrow : r ∈ rows := (List.mem_filter.mp hr).1
    obtain ⟨s, hs⟩ := Option.isSome_iff_exists.mp (hcols r hrow).1
    obtain ⟨t, ht⟩ := Option.isSome_iff_exists.mp (hcols r hrow).2
    refine ⟨rfl, ?_⟩
    simp [dictTys, propDictC, mkCsvPropRec, pyOfOptStr, PyVal.ty, hs, ht, propTysCsv]
  · have hperm : (apiUniqueList (apiPropsRead c)).Perm
        (buildUnique (flatProps (apiPropsRead c))) :=
      List.perm_insertionSort _ _
    have hP := foldl_insertOcc_pres (fun v => v.first_seen = "" ∧ v.last_seen = "")
      (flatProps (apiPropsRead c)) [] (fun _ _ h => h) (fun _ => ⟨rfl, rfl⟩) (by simp)
    intro u hu
    have hu2 := hP u (hperm.mem_iff.mp hu)
    exact ⟨rfl, rfl, hu2.1, hu2.2⟩
  · have hperm : (csvUniqueList rows).Perm
        ((rows.filter propRowFilter).foldl insertOccC []) :=
      List.perm_insertionSort _ _
    have hP := foldl_insertOccC_pres (fun v => v.is_array.isSome)
      (rows.filter propRowFilter) []
      (fun u r _ hu => by
        show (updateURecC u r).is_array.isSome = true
        rw [updateURecC_is_array]
        exact hu)
      (fun r hr => by
        show (updateURecC (initURecC r) r).is_array.isSome = true
        rw [updateURecC_is_array]
        exact (hcols r (List.mem_filter.mp hr).1).2)
      (by simp)
    intro u hu
    have hu2 := hP u (hperm.mem_iff.mp hu)
    obtain ⟨t, ht⟩ := Option.isSome_iff_exists.mp hu2
    refine ⟨rfl, ?_⟩
    simp [dictTys, uniqueDictC, pyOfOptStr, PyVal.ty, ht, uniqueTysCsv]

theorem mode_shape_equivalence_witness :
    (platformOverviewApi c5Cache).last_updated = "Live" ∧
    (platformOverviewCsv c5Rows).last_updated = "CSV snapshot" ∧
    dictKeys (overviewDict (platformOverviewApi c5Cache))
      = dictKeys (overviewDict (platformOverviewCsv c5Rows)) := by
  have h := mode_shape_equivalence c5Cache c5Rows
    [csvEventRecTotal c5Row] (by decide) (by decide)
  exact ⟨h.2.2.2.2.2.2.2.2.2.1, h.2.2.2.2.2.2.2.2.2.2, h.2.2.2.2.2.2.2.2.1.1⟩
